import Mathlib

/-!
Shallow embedding of the `timeline_monitor` library
(`src/timeline_monitor.h`): the event data model (`TimelineElem`), the
per-thread event log (`Timeline`), the RAII scope guard
(`TimelineMonitor`), the reference renderer (`TimelineDump`), and the
test scenarios from the repository's test file.

Machine integers are modelled as `Nat` with explicit reduction modulo
`2^32` (the `lastDepth` counter, a C++ `uint32_t` updated with `++` and
`--`) and modulo `2^64` (the event-id counter and epoch-microsecond
subtraction, C++ `uint64_t`).  Timestamps are threaded explicitly: every
operation that constructs an event takes the current clock value and the
runners advance a tick counter, standing in for
`std::chrono::system_clock::now()`.
-/

namespace timeline_monitor

/-- Modulus of a C++ `uint32_t`. -/
def U32 : Nat := 2 ^ 32

/-- Modulus of a C++ `uint64_t`. -/
def U64 : Nat := 2 ^ 64

/-- C++ `uint64_t` subtraction `a - b` (wrap-around modulo `2^64`). -/
def u64sub (a b : Nat) : Nat := (a % U64 + (U64 - b % U64)) % U64

/-- `TimelineElem::Type`: kind of a timeline event. -/
inductive ElemType where
  | BEGIN : ElemType
  | END : ElemType
deriving DecidableEq, Repr

/-- `TimelineElem`: one immutable begin/end record.  `timestamp` is the
epoch in microseconds that `std::chrono::system_clock::now()` returned at
construction time. -/
structure TimelineElem where
  timelineName : String
  type : ElemType
  id : Nat
  depth : Nat
  timestamp : Nat
deriving DecidableEq, Repr

/-- `Timeline`: event log, id issuer and nesting counter of one chain. -/
structure Timeline where
  eventIdCounter : Nat
  elems : List TimelineElem
  lastDepth : Nat
deriving DecidableEq, Repr

/-- `Timeline()` default constructor: `eventIdCounter(0), lastDepth(0)`,
empty element list. -/
def Timeline.init : Timeline := ⟨0, [], 0⟩

/-- The `BEGIN` element constructed inside `Timeline::pushBegin`: depth is
the pre-increment value of `lastDepth`. -/
def Timeline.beginElem (t : Timeline) (name : String) (id ts : Nat) : TimelineElem :=
  ⟨name, ElemType.BEGIN, id, t.lastDepth, ts⟩

/-- `Timeline::pushBegin`: append a `BEGIN` element, post-increment
`lastDepth` (uint32 wrap-around). -/
def Timeline.pushBegin (t : Timeline) (name : String) (id ts : Nat) : Timeline :=
  { t with elems := t.elems ++ [t.beginElem name id ts],
           lastDepth := (t.lastDepth + 1) % U32 }

/-- Value of `lastDepth` after the pre-decrement `--lastDepth` in
`Timeline::pushEnd` (uint32 wrap-around). -/
def Timeline.endDepth (t : Timeline) : Nat := (t.lastDepth + (U32 - 1)) % U32

/-- The `END` element constructed inside `Timeline::pushEnd`: depth is the
post-decrement value of `lastDepth`. -/
def Timeline.endElem (t : Timeline) (name : String) (id ts : Nat) : TimelineElem :=
  ⟨name, ElemType.END, id, t.endDepth, ts⟩

/-- The state of the timeline right after the `elems.push_back(...)` line
of `Timeline::pushEnd` / `Timeline::pushEndAndExport`, before
`clearIfNecessary` runs. -/
def Timeline.appendEnd (t : Timeline) (name : String) (id ts : Nat) : Timeline :=
  { t with elems := t.elems ++ [t.endElem name id ts],
           lastDepth := t.endDepth }

/-- `Timeline::clear` (private): drops every stored element; the counters
are left untouched. -/
def Timeline.clear (t : Timeline) : Timeline := { t with elems := [] }

/-- `Timeline::clearIfNecessary`: reads `*elems.begin()` and clears the
log when the first element's id equals `id`.  On an empty list the C++
code dereferences `begin()` of an empty `std::list`, which is undefined
behaviour; that case is modelled as `none`. -/
def Timeline.clearIfNecessary (t : Timeline) (id : Nat) : Option Timeline :=
  match t.elems with
  | [] => none
  | first_elem :: _ => some (if first_elem.id = id then t.clear else t)

/-- `Timeline::pushEnd`: append an `END` element (with the pre-decrement
of `lastDepth`), then apply the reset rule.  The `none` branch of
`clearIfNecessary` is unreachable here because an element was just
appended. -/
def Timeline.pushEnd (t : Timeline) (name : String) (id ts : Nat) : Timeline :=
  let t2 := t.appendEnd name id ts
  match t2.clearIfNecessary id with
  | some r => r
  | none => t2

/-- `Timeline::pushEndAndExport`: append an `END` element, take a full
copy (`Timeline ret = *this`), apply the reset rule to the source, and
return the copy.  Result: `(new source state, exported copy)`. -/
def Timeline.pushEndAndExport (t : Timeline) (name : String) (id ts : Nat) :
    Timeline × Timeline :=
  let t2 := t.appendEnd name id ts
  match t2.clearIfNecessary id with
  | some r => (r, t2)
  | none => (t2, t2)

/-- `Timeline::getElems`. -/
def Timeline.getElems (t : Timeline) : List TimelineElem := t.elems

/-- `Timeline::getDepth`. -/
def Timeline.getDepth (t : Timeline) : Nat := t.lastDepth

/-- `Timeline::issueId`: return the current counter value and
post-increment it (uint64 wrap-around). -/
def Timeline.issueId (t : Timeline) : Nat × Timeline :=
  (t.eventIdCounter, { t with eventIdCounter := (t.eventIdCounter + 1) % U64 })

/-- `TimelineMonitor`: the scope-guard object. `done` is the finalized
flag. -/
structure TimelineMonitor where
  myName : String
  myId : Nat
  done : Bool
deriving DecidableEq, Repr

/-- A timeline together with the current clock tick (each event capture
advances the clock by one, standing in for `system_clock::now()`). -/
structure TLState where
  tl : Timeline
  clock : Nat
deriving DecidableEq, Repr

/-- `TimelineMonitor::TimelineMonitor(timeline, name)`: issue an id from
the bound timeline, push a `BEGIN` event, `done = false`. -/
def mkMonitor (name : String) (s : TLState) : TimelineMonitor × TLState :=
  let p := s.tl.issueId
  (⟨name, p.1, false⟩, ⟨p.2.pushBegin name p.1 s.clock, s.clock + 1⟩)

/-- `TimelineMonitor::~TimelineMonitor()`: if not yet finalized, push the
matching `END` event and set `done`. -/
def destructMonitor (m : TimelineMonitor) (s : TLState) : TimelineMonitor × TLState :=
  if m.done then (m, s)
  else ({ m with done := true }, ⟨s.tl.pushEnd m.myName m.myId s.clock, s.clock + 1⟩)

/-- `TimelineMonitor::exportTimeline()`: unconditionally call
`pushEndAndExport` on the bound timeline, set `done`, and return the
exported copy. -/
def exportTimeline (m : TimelineMonitor) (s : TLState) :
    TimelineMonitor × TLState × Timeline :=
  let p := s.tl.pushEndAndExport m.myName m.myId s.clock
  ({ m with done := true }, ⟨p.1, s.clock + 1⟩, p.2)

/-- `TimelineMonitor::getElapsedUs()`: 0 on an empty bound timeline,
otherwise `now - first element's epoch` in uint64 arithmetic. -/
def getElapsedUs (t : Timeline) (now : Nat) : Nat :=
  match t.elems with
  | [] => 0
  | te :: _ => u64sub now te.timestamp

/-- Apply `f` `n` times (the `for` loops of the test scenarios). -/
def iterateN (f : α → α) : Nat → α → α
  | 0, s => s
  | n + 1, s => iterateN f n (f s)

/-- `T_MONITOR_BLOCK("func_1_inner")` in its own block: construct a
monitor and immediately destruct it. -/
def innerBlock (s : TLState) : TLState :=
  let p := mkMonitor "func_1_inner" s
  (destructMonitor p.1 p.2).2

namespace HierTest

/-- `func_1` of `hierarchical_test`: a monitored function body running `A`
inner blocks. -/
def func1 (A : Nat) (s : TLState) : TLState :=
  let p := mkMonitor "func_1" s
  let s2 := iterateN innerBlock A p.2
  (destructMonitor p.1 s2).2

/-- `func_2` of `hierarchical_test`: a monitored function body running `B`
calls of `func_1`, then exporting; the guard's destructor still runs after
the export. -/
def func2 (A B : Nat) (s : TLState) : TLState × Timeline :=
  let p := mkMonitor "func_2" s
  let s2 := iterateN (func1 A) B p.2
  let q := exportTimeline p.1 s2
  ((destructMonitor q.1 q.2.1).2, q.2.2)

/-- The timeline exported by `hierarchical_test`'s `func_2()` call, run on
a fresh thread-local timeline. -/
def hierExport (A B : Nat) : Timeline := (func2 A B ⟨Timeline.init, 0⟩).2

end HierTest

namespace MidTest

/-- `func_1` of `export_in_the_middle_test`: one inner block, then an
optional mid-chain export. -/
def func1 (doMiddleExport : Bool) (s : TLState) : TLState × Option Timeline :=
  let p := mkMonitor "func_1" s
  let s2 := innerBlock p.2
  if doMiddleExport then
    let q := exportTimeline p.1 s2
    ((destructMonitor q.1 q.2.1).2, some q.2.2)
  else
    ((destructMonitor p.1 s2).2, none)

/-- `func_2` of `export_in_the_middle_test`: calls `func_1`, and exports
itself when `func_1` did not. -/
def func2 (doMiddleExport : Bool) (s : TLState) : TLState × Option Timeline :=
  let p := mkMonitor "func_2" s
  let r := func1 doMiddleExport p.2
  if doMiddleExport then
    ((destructMonitor p.1 r.1).2, r.2)
  else
    let q := exportTimeline p.1 r.1
    ((destructMonitor q.1 q.2.1).2, some q.2.2)

/-- First run of the test: `func_2(true)` on a fresh thread-local
timeline. -/
def run1 : TLState × Option Timeline := func2 true ⟨Timeline.init, 0⟩

/-- Second run of the test: `func_2(false)` on the state the first run
left behind. -/
def run2 : TLState × Option Timeline := func2 false run1.1

end MidTest

/-- `begin_elems.find(id)` of `TimelineDump::toString`: the
`unordered_map` is modelled as an association list; `find` returns the
stored `BEGIN` element for `id`, if any. -/
def findBegin (m : List (Nat × TimelineElem)) (k : Nat) : Option TimelineElem :=
  match m with
  | [] => none
  | (k', v) :: rest => if k' = k then some v else findBegin rest k

/-- `begin_elems.insert(make_pair(id, elem))`: `std::unordered_map::insert`
does not overwrite an existing key. -/
def insertIfAbsent (m : List (Nat × TimelineElem)) (k : Nat) (v : TimelineElem) :
    List (Nat × TimelineElem) :=
  match findBegin m k with
  | some _ => m
  | none => (k, v) :: m

/-- Output line of `TimelineDump::toString` for a `BEGIN` element:
`depth` spaces, the name, and the epoch in microseconds. -/
def beginLine (e : TimelineElem) : String :=
  String.mk (List.replicate e.depth ' ') ++ e.timelineName ++ ", " ++ toString e.timestamp

/-- Output line of `TimelineDump::toString` for a matched `END` element:
the begin's indentation and name, the end epoch, and the uint64 duration. -/
def endLine (b e : TimelineElem) : String :=
  String.mk (List.replicate b.depth ' ') ++ b.timelineName ++ ", "
    ++ toString e.timestamp ++ ", " ++ toString (u64sub e.timestamp b.timestamp)

/-- One iteration of the rendering loop of `TimelineDump::toString`:
returns the updated begin-map and the emitted line, if any.  An `END`
element whose id has no stored `BEGIN` is skipped (`none`). -/
def dumpStep (m : List (Nat × TimelineElem)) (e : TimelineElem) :
    List (Nat × TimelineElem) × Option String :=
  match e.type with
  | ElemType.BEGIN => (insertIfAbsent m e.id e, some (beginLine e))
  | ElemType.END =>
    match findBegin m e.id with
    | none => (m, none)
    | some b => (m, some (endLine b e))

/-- The list of lines emitted by the rendering loop of
`TimelineDump::toString`, starting from begin-map `m`. -/
def dumpLines (m : List (Nat × TimelineElem)) : List TimelineElem → List String
  | [] => []
  | e :: es =>
    match dumpStep m e with
    | (m2, none) => dumpLines m2 es
    | (m2, some l) => l :: dumpLines m2 es

/-- `TimelineDump::toString`: the `need_endl` bookkeeping of the C++ loop
amounts to joining the emitted lines with a newline. -/
def TimelineDump.toString (src : Timeline) : String :=
  String.intercalate "\n" (dumpLines [] src.getElems)

/-- Number of orphaned `END` events of a sequence: `END` events whose
correlation id has no `BEGIN` event earlier in the sequence (`seen`
carries the ids of the `BEGIN` events already passed). -/
def orphanCount (seen : List Nat) : List TimelineElem → Nat
  | [] => 0
  | e :: es =>
    match e.type with
    | ElemType.BEGIN => orphanCount (e.id :: seen) es
    | ElemType.END => (if e.id ∈ seen then 0 else 1) + orphanCount seen es

/-- Well-nested runs of scope guards: `nil` is the empty run and
`cons name children rest` opens a guard named `name`, runs `children`
inside it, closes the guard, and then runs `rest`.  Every `pushEnd` of
such a run closes the most recently opened still-open `pushBegin` and
uses that begin's issued id. -/
inductive Forest where
  | nil : Forest
  | cons (name : String) (children rest : Forest) : Forest
deriving DecidableEq, Repr

/-- Number of scopes of a well-nested run. -/
def Forest.size : Forest → Nat
  | .nil => 0
  | .cons _ ch rest => 1 + ch.size + rest.size

/-- Maximal nesting depth of a well-nested run. -/
def Forest.height : Forest → Nat
  | .nil => 0
  | .cons _ ch rest => max (1 + ch.height) rest.height

/-- Execute a well-nested run through the scope-guard API, returning the
final state and the trace of every event the run recorded (the trace
elements are exactly the elements the `pushBegin`/`pushEnd` calls
construct, whether or not a reset later drops them from the log). -/
def runForest : Forest → TLState → TLState × List TimelineElem
  | .nil, s => (s, [])
  | .cons name ch rest, s =>
    let p := mkMonitor name s
    let b := s.tl.beginElem name p.1.myId s.clock
    let q := runForest ch p.2
    let e := q.1.tl.endElem name p.1.myId q.1.clock
    let s3 := (destructMonitor p.1 q.1).2
    let r := runForest rest s3
    (r.1, b :: (q.2 ++ e :: r.2))

/-- The matched-pair depth property: any `BEGIN` and `END` event of the
trace that share a correlation id carry the same depth number. -/
def pairProp (tr : List TimelineElem) : Prop :=
  ∀ e1 ∈ tr, ∀ e2 ∈ tr,
    e1.type = ElemType.BEGIN → e2.type = ElemType.END → e1.id = e2.id →
    e1.depth = e2.depth

/-- The body of `func_1`'s loop in `hierarchical_test`, as a well-nested
run: `A` sibling scopes named `func_1_inner`. -/
def innerForest : Nat → Forest
  | 0 => Forest.nil
  | A + 1 => Forest.cons "func_1_inner" Forest.nil (innerForest A)

/-- The body of `func_2`'s loop in `hierarchical_test`, as a well-nested
run: `B` sibling scopes named `func_1`, each containing `A` inner
scopes. -/
def hierForest (A : Nat) : Nat → Forest
  | 0 => Forest.nil
  | B + 1 => Forest.cons "func_1" (innerForest A) (hierForest A B)

/-- A two-level well-nested run used as a concrete instance. -/
def demoForest : Forest :=
  Forest.cons "outer" (Forest.cons "inner" Forest.nil Forest.nil) Forest.nil

/-- Concrete double-export scenario: a guard on a fresh timeline. -/
def c4mk : TimelineMonitor × TLState := mkMonitor "f" ⟨Timeline.init, 0⟩

/-- First `exportTimeline` call: finalizes the guard. -/
def c4ex1 : TimelineMonitor × TLState × Timeline := exportTimeline c4mk.1 c4mk.2

/-- Second `exportTimeline` call on the already finalized guard. -/
def c4ex2 : TimelineMonitor × TLState × Timeline := exportTimeline c4ex1.1 c4ex1.2.1

theorem U32_eq : U32 = 4294967296 := rfl

theorem U64_eq : U64 = 18446744073709551616 := rfl

theorem head?_append_of_head? {l l2 : List TimelineElem} {e0 : TimelineElem}
    (h : l.head? = some e0) : (l ++ l2).head? = some e0 := by
  cases l with
  | nil => cases h
  | cons x xs => simpa using h

theorem pushEnd_eq (t : Timeline) (name : String) (id ts : Nat) :
    t.pushEnd name id ts =
      if (t.elems ++ [t.endElem name id ts]).head?.map TimelineElem.id = some id
      then (t.appendEnd name id ts).clear
      else t.appendEnd name id ts := by
  unfold Timeline.pushEnd Timeline.clearIfNecessary
  cases h : t.elems with
  | nil => simp [Timeline.appendEnd, h, Timeline.endElem]
  | cons x xs =>
    by_cases hx : x.id = id <;>
      simp [Timeline.appendEnd, h, hx]

theorem pushEndAndExport_eq (t : Timeline) (name : String) (id ts : Nat) :
    t.pushEndAndExport name id ts = (t.pushEnd name id ts, t.appendEnd name id ts) := by
  unfold Timeline.pushEndAndExport Timeline.pushEnd
  cases h : (t.appendEnd name id ts).clearIfNecessary id <;> simp [h]

theorem pushEnd_lastDepth (t : Timeline) (name : String) (id ts : Nat) :
    (t.pushEnd name id ts).lastDepth = t.endDepth := by
  rw [pushEnd_eq]
  split <;> simp [Timeline.clear, Timeline.appendEnd]

theorem pushEnd_eventIdCounter (t : Timeline) (name : String) (id ts : Nat) :
    (t.pushEnd name id ts).eventIdCounter = t.eventIdCounter := by
  rw [pushEnd_eq]
  split <;> simp [Timeline.clear, Timeline.appendEnd]

theorem pushEnd_elems (t : Timeline) (name : String) (id ts : Nat) :
    (t.pushEnd name id ts).elems =
      if (t.elems ++ [t.endElem name id ts]).head?.map TimelineElem.id = some id
      then []
      else t.elems ++ [t.endElem name id ts] := by
  rw [pushEnd_eq]
  split <;> simp [Timeline.clear, Timeline.appendEnd]

theorem pushEnd_of_head {t : Timeline} {e0 : TimelineElem} {id : Nat}
    (h : t.elems.head? = some e0) (hne : e0.id ≠ id) (name : String) (ts : Nat) :
    t.pushEnd name id ts = t.appendEnd name id ts := by
  rw [pushEnd_eq, if_neg]
  rw [head?_append_of_head? h]
  simpa using hne

theorem u64sub_eq {a b : Nat} (hb : b ≤ a) (ha : a < U64) : u64sub a b = a - b := by
  have hbU : b < U64 := lt_of_le_of_lt hb ha
  unfold u64sub
  rw [Nat.mod_eq_of_lt ha, Nat.mod_eq_of_lt hbU]
  rw [U64_eq] at *
  omega

/-- Claim C2: `pushEnd(name, id)` decrements the nesting counter (uint32
wrap-around), appends at the back an `END` event carrying the
post-decrement counter value as its depth, and then the whole event
sequence is cleared if and only if the first event of the post-append
sequence has correlation id `id`; otherwise the sequence is the old one
with the `END` event appended. -/
theorem claim_C2 : ∀ (t : Timeline) (name : String) (id ts : Nat),
    (t.pushEnd name id ts).lastDepth = (t.lastDepth + (U32 - 1)) % U32
    ∧ (t.pushEnd name id ts).eventIdCounter = t.eventIdCounter
    ∧ (t.endElem name id ts).type = ElemType.END
    ∧ (t.endElem name id ts).id = id
    ∧ (t.endElem name id ts).depth = (t.pushEnd name id ts).lastDepth
    ∧ (t.pushEnd name id ts).elems =
        (if (t.elems ++ [t.endElem name id ts]).head?.map TimelineElem.id = some id
         then []
         else t.elems ++ [t.endElem name id ts]) := by
  intro t name id ts
  refine ⟨pushEnd_lastDepth t name id ts, pushEnd_eventIdCounter t name id ts, rfl, rfl,
    ?_, pushEnd_elems t name id ts⟩
  rw [pushEnd_lastDepth]
  rfl

/-- Claim C3: `pushEndAndExport(name, id)` appends the same `END` event
as `pushEnd` would, returns a detached copy of the timeline taken before
the reset rule is applied (so the copy holds every accumulated event,
including the just-appended `END`), and the reset clears the source's
event sequence if and only if `id` equals the correlation id of the
first stored event of the post-append sequence.  The copy is a value,
unaffected by the source's reset. -/
theorem claim_C3 : ∀ (t : Timeline) (name : String) (id ts : Nat),
    (t.pushEndAndExport name id ts).2 = t.appendEnd name id ts
    ∧ (t.appendEnd name id ts).elems = t.elems ++ [t.endElem name id ts]
    ∧ (t.pushEndAndExport name id ts).1 = t.pushEnd name id ts
    ∧ (t.pushEndAndExport name id ts).1.elems =
        (if (t.appendEnd name id ts).elems.head?.map TimelineElem.id = some id
         then []
         else (t.appendEnd name id ts).elems)
    ∧ (t.pushEndAndExport name id ts).1.lastDepth = (t.appendEnd name id ts).lastDepth := by
  intro t name id ts
  rw [pushEndAndExport_eq]
  refine ⟨rfl, rfl, rfl, ?_, ?_⟩
  · exact pushEnd_elems t name id ts
  · rw [pushEnd_lastDepth]
    rfl

/-- Claim C9: inside `pushEnd` and `pushEndAndExport` the
`clearIfNecessary` read of the first element always happens on a
non-empty sequence (the `END` event was just appended), so the
first-element access never hits the empty case; by contrast, the public
`clearIfNecessary` on a timeline with an empty event sequence performs
the unguarded first-element access on an empty list (modelled here as
the `none` result). -/
theorem claim_C9 : ∀ (t : Timeline) (name : String) (id ts : Nat),
    ((t.appendEnd name id ts).clearIfNecessary id).isSome = true
    ∧ (t.pushEnd name id ts) =
        ((t.appendEnd name id ts).clearIfNecessary id).getD (t.appendEnd name id ts)
    ∧ (t.pushEndAndExport name id ts).1 =
        ((t.appendEnd name id ts).clearIfNecessary id).getD (t.appendEnd name id ts)
    ∧ (∀ (t' : Timeline) (id' : Nat), t'.clearIfNecessary id' = none ↔ t'.elems = []) := by
  intro t name id ts
  have hsome : ((t.appendEnd name id ts).clearIfNecessary id).isSome = true := by
    unfold Timeline.clearIfNecessary
    cases h : t.elems <;> simp [Timeline.appendEnd, h]
  refine ⟨hsome, ?_, ?_, ?_⟩
  · unfold Timeline.pushEnd
    cases h : (t.appendEnd name id ts).clearIfNecessary id <;> simp [h]
  · rw [pushEndAndExport_eq]
    unfold Timeline.pushEnd
    cases h : (t.appendEnd name id ts).clearIfNecessary id <;> simp [h]
  · intro t' id'
    unfold Timeline.clearIfNecessary
    cases h : t'.elems <;> simp

/-- Claim C10: the nesting counter is uint32 with wrap-around arithmetic:
`pushEnd` (or `pushEndAndExport`) on a timeline whose counter is `0`
records an `END` event of depth `2^32 - 1` and leaves the counter at
`2^32 - 1`; on a fresh or just-reset timeline (empty event sequence) the
appended `END` self-matches and the sequence is cleared, as the exported
copy of `pushEndAndExport` still shows the recorded event. -/
theorem claim_C10 : ∀ (t : Timeline) (name : String) (id ts : Nat),
    t.lastDepth = 0 →
    (t.pushEnd name id ts).lastDepth = U32 - 1
    ∧ (t.pushEndAndExport name id ts).1.lastDepth = U32 - 1
    ∧ (t.endElem name id ts).depth = U32 - 1
    ∧ (t.elems = [] →
        (t.pushEnd name id ts).elems = []
        ∧ (t.pushEndAndExport name id ts).2.elems = [t.endElem name id ts]) := by
  intro t name id ts h0
  have hd : t.endDepth = U32 - 1 := by
    unfold Timeline.endDepth
    rw [h0]
    rw [U32_eq]
  have h1 : (t.pushEnd name id ts).lastDepth = U32 - 1 := by
    rw [pushEnd_lastDepth]; exact hd
  refine ⟨h1, ?_, ?_, ?_⟩
  · rw [pushEndAndExport_eq]; exact h1
  · exact hd
  · intro hnil
    constructor
    · rw [pushEnd_elems, if_pos]
      rw [hnil]
      simp [Timeline.endElem]
    · rw [pushEndAndExport_eq]
      simp [Timeline.appendEnd, hnil]

/-- Witness for claim C10 on a fresh timeline. -/
theorem claim_C10_witness :
    Timeline.init.lastDepth = 0
    ∧ (Timeline.init.pushEnd "f" 0 0).lastDepth = U32 - 1
    ∧ (Timeline.init.pushEnd "f" 0 0).elems = [] :=
  ⟨rfl, (claim_C10 Timeline.init "f" 0 0 rfl).1,
    ((claim_C10 Timeline.init "f" 0 0 rfl).2.2.2 rfl).1⟩

/-- Claim C7: `getElapsedUs` returns `0` when the bound timeline's event
sequence is empty, and otherwise the difference in microseconds between
the current time and the timestamp of the first stored event; it reads
the timeline and mutates nothing. -/
theorem claim_C7 : ∀ (t : Timeline) (now : Nat),
    (t.elems = [] → getElapsedUs t now = 0)
    ∧ (∀ (e : TimelineElem) (rest : List TimelineElem),
        t.elems = e :: rest → e.timestamp ≤ now → now < U64 →
        getElapsedUs t now = now - e.timestamp) := by
  intro t now
  constructor
  · intro h
    unfold getElapsedUs
    rw [h]
  · intro e rest h hle hlt
    unfold getElapsedUs
    rw [h]
    exact u64sub_eq hle hlt

/-- Witness for claim C7: the empty timeline yields 0; a timeline whose
first event was captured at epoch 3 yields 7 at epoch 10. -/
theorem claim_C7_witness :
    getElapsedUs Timeline.init 5 = 0
    ∧ getElapsedUs ⟨0, [⟨"a", ElemType.BEGIN, 0, 0, 3⟩], 1⟩ 10 = 10 - 3 :=
  ⟨(claim_C7 Timeline.init 5).1 rfl,
    (claim_C7 ⟨0, [⟨"a", ElemType.BEGIN, 0, 0, 3⟩], 1⟩ 10).2 ⟨"a", ElemType.BEGIN, 0, 0, 3⟩ []
      rfl (by decide) (by decide)⟩

/-- Claim C4 counterexample: the finalized flag is not checked by
`exportTimeline`.  After a first `exportTimeline` the guard is finalized
(`done = true`), yet a second `exportTimeline` call still appends an
`END` event (the second exported copy consists of exactly that fresh
`END` event) and still mutates the bound timeline's nesting counter. -/
theorem claim_C4_counterexample :
    c4ex1.1.done = true
    ∧ c4ex2.2.2.elems.length = 1
    ∧ c4ex2.2.2.elems.map TimelineElem.type = [ElemType.END]
    ∧ c4ex1.2.1.tl.lastDepth = 0
    ∧ c4ex2.2.1.tl.lastDepth = U32 - 1 := by
  refine ⟨rfl, rfl, rfl, rfl, ?_⟩
  rw [U32_eq]
  rfl

/-- Claim C4, amended: double finalization through the destructor is a
no-op (the destructor checks the finalized flag), and calling
`exportTimeline` and then letting the guard go out of scope appends no
second `END` event; but `exportTimeline` itself does not check the flag,
so re-invoking it on a finalized guard appends a further `END` event. -/
theorem claim_C4 :
    (∀ (m : TimelineMonitor) (s : TLState),
        destructMonitor (destructMonitor m s).1 (destructMonitor m s).2
          = destructMonitor m s)
    ∧ (∀ (m : TimelineMonitor) (s : TLState),
        destructMonitor (exportTimeline m s).1 (exportTimeline m s).2.1
          = ((exportTimeline m s).1, (exportTimeline m s).2.1))
    ∧ (∀ (m : TimelineMonitor) (s : TLState), m.done = true → destructMonitor m s = (m, s)) := by
  refine ⟨?_, ?_, ?_⟩
  · intro m s
    unfold destructMonitor
    cases hd : m.done <;> simp [hd]
  · intro m s
    unfold exportTimeline destructMonitor
    simp
  · intro m s hd
    unfold destructMonitor
    simp [hd]

/-- Witness for claim C4 at a concrete finalized guard. -/
theorem claim_C4_witness :
    (⟨"f", 0, true⟩ : TimelineMonitor).done = true
    ∧ destructMonitor ⟨"f", 0, true⟩ ⟨Timeline.init, 0⟩
        = (⟨"f", 0, true⟩, ⟨Timeline.init, 0⟩) :=
  ⟨rfl, claim_C4.2.2 ⟨"f", 0, true⟩ ⟨Timeline.init, 0⟩ rfl⟩

/-- Claim C5: an export whose id differs from the first stored event's id
returns every event captured so far in the chain (including the
just-appended `END`) and leaves the source uncleared; and concretely, in
the `export_in_the_middle_test` scenario the mid-chain export of the
first run yields 5 events at depth 1, the outermost export of the second
run yields 6 events at depth 0, and the latter resets the source
timeline. -/
theorem claim_C5 :
    (∀ (t : Timeline) (name : String) (id ts : Nat) (e0 : TimelineElem),
        t.elems.head? = some e0 → e0.id ≠ id →
        (t.pushEndAndExport name id ts).2.elems = t.elems ++ [t.endElem name id ts]
        ∧ (t.pushEndAndExport name id ts).1 = t.appendEnd name id ts
        ∧ (t.pushEndAndExport name id ts).1.elems = t.elems ++ [t.endElem name id ts])
    ∧ MidTest.run1.2.map (fun tl => (tl.getElems.length, tl.getDepth)) = some (5, 1)
    ∧ MidTest.run2.2.map (fun tl => (tl.getElems.length, tl.getDepth)) = some (6, 0)
    ∧ MidTest.run2.1.tl.elems = [] := by
  refine ⟨?_, by decide, by decide, by decide⟩
  intro t name id ts e0 h hne
  rw [pushEndAndExport_eq, pushEnd_of_head h hne]
  exact ⟨rfl, rfl, rfl⟩

/-- Witness for claim C5 at a concrete timeline whose first stored event
has id 7, exported with the different id 9. -/
theorem claim_C5_witness :
    (⟨3, [⟨"x", ElemType.BEGIN, 7, 0, 0⟩], 1⟩ : Timeline).elems.head?
        = some ⟨"x", ElemType.BEGIN, 7, 0, 0⟩
    ∧ (⟨"x", ElemType.BEGIN, 7, 0, 0⟩ : TimelineElem).id ≠ 9
    ∧ ((⟨3, [⟨"x", ElemType.BEGIN, 7, 0, 0⟩], 1⟩ : Timeline).pushEndAndExport "n" 9 5).1.elems
        = [⟨"x", ElemType.BEGIN, 7, 0, 0⟩]
            ++ [(⟨3, [⟨"x", ElemType.BEGIN, 7, 0, 0⟩], 1⟩ : Timeline).endElem "n" 9 5] :=
  ⟨rfl, by decide,
    (claim_C5.1 ⟨3, [⟨"x", ElemType.BEGIN, 7, 0, 0⟩], 1⟩ "n" 9 5
      ⟨"x", ElemType.BEGIN, 7, 0, 0⟩ rfl (by decide)).2.2⟩

theorem findBegin_insertIfAbsent_self (m : List (Nat × TimelineElem)) (k : Nat)
    (v : TimelineElem) : (findBegin (insertIfAbsent m k v) k).isSome = true := by
  unfold insertIfAbsent
  cases h : findBegin m k <;> simp [h, findBegin]

theorem findBegin_insertIfAbsent_ne (m : List (Nat × TimelineElem)) (k : Nat)
    (v : TimelineElem) (i : Nat) (h : i ≠ k) :
    findBegin (insertIfAbsent m k v) i = findBegin m i := by
  unfold insertIfAbsent
  cases hf : findBegin m k
  · simp [findBegin, Ne.symm h]
  · rfl

theorem dumpLines_length :
    ∀ (es : List TimelineElem) (m : List (Nat × TimelineElem)) (seen : List Nat),
    (∀ i, i ∈ seen ↔ (findBegin m i).isSome = true) →
    (dumpLines m es).length + orphanCount seen es = es.length := by
  intro es
  induction es with
  | nil => intro m seen _; simp [dumpLines, orphanCount]
  | cons e es ih =>
    intro m seen hcorr
    cases hty : e.type with
    | BEGIN =>
      have hstep : dumpStep m e = (insertIfAbsent m e.id e, some (beginLine e)) := by
        unfold dumpStep; rw [hty]
      have hcorr2 : ∀ i, i ∈ e.id :: seen ↔
          (findBegin (insertIfAbsent m e.id e) i).isSome = true := by
        intro i
        by_cases hi : i = e.id
        · subst hi
          simp [findBegin_insertIfAbsent_self]
        · rw [findBegin_insertIfAbsent_ne _ _ _ _ hi]
          simp [hi, hcorr i]
      have hrec := ih (insertIfAbsent m e.id e) (e.id :: seen) hcorr2
      simp only [dumpLines, hstep, orphanCount, hty, List.length_cons]
      omega
    | END =>
      cases hf : findBegin m e.id with
      | none =>
        have hstep : dumpStep m e = (m, none) := by unfold dumpStep; rw [hty, hf]
        have hnotin : e.id ∉ seen := by
          intro hin
          have := (hcorr e.id).mp hin
          rw [hf] at this
          simp at this
        have hrec := ih m seen hcorr
        simp only [dumpLines, hstep, orphanCount, hty, List.length_cons, if_neg hnotin]
        omega
      | some b =>
        have hstep : dumpStep m e = (m, some (endLine b e)) := by
          unfold dumpStep; rw [hty, hf]
        have hin : e.id ∈ seen := by
          rw [hcorr e.id, hf]
          rfl
        have hrec := ih m seen hcorr
        simp only [dumpLines, hstep, orphanCount, hty, List.length_cons, if_pos hin]
        omega

theorem dumpLines_orphan :
    ∀ (es1 : List TimelineElem) (m : List (Nat × TimelineElem)) (e : TimelineElem)
      (es2 : List TimelineElem),
    e.type = ElemType.END →
    findBegin m e.id = none →
    (∀ b ∈ es1, b.type = ElemType.BEGIN → b.id ≠ e.id) →
    dumpLines m (es1 ++ e :: es2) = dumpLines m (es1 ++ es2) := by
  intro es1
  induction es1 with
  | nil =>
    intro m e es2 hty hf _
    have hstep : dumpStep m e = (m, none) := by unfold dumpStep; rw [hty, hf]
    simp only [List.nil_append, dumpLines, hstep]
  | cons x xs ih =>
    intro m e es2 hty hf hb
    have hxs : ∀ b ∈ xs, b.type = ElemType.BEGIN → b.id ≠ e.id :=
      fun b hbm => hb b (List.mem_cons_of_mem x hbm)
    cases hxty : x.type with
    | BEGIN =>
      have hne : x.id ≠ e.id := hb x (List.mem_cons_self x xs) hxty
      have hstep : dumpStep m x = (insertIfAbsent m x.id x, some (beginLine x)) := by
        unfold dumpStep; rw [hxty]
      have hf2 : findBegin (insertIfAbsent m x.id x) e.id = none := by
        rw [findBegin_insertIfAbsent_ne _ _ _ _ (Ne.symm hne)]
        exact hf
      simp only [List.cons_append, dumpLines, hstep, List.append_eq]
      rw [ih _ _ _ hty hf2 hxs]
    | END =>
      cases hfx : findBegin m x.id with
      | none =>
        have hstep : dumpStep m x = (m, none) := by unfold dumpStep; rw [hxty, hfx]
        simp only [List.cons_append, dumpLines, hstep, List.append_eq]
        exact ih _ _ _ hty hf hxs
      | some bb =>
        have hstep : dumpStep m x = (m, some (endLine bb x)) := by
          unfold dumpStep; rw [hxty, hfx]
        simp only [List.cons_append, dumpLines, hstep, List.append_eq]
        rw [ih _ _ _ hty hf hxs]

/-- Claim C8: in `TimelineDump::toString` an `END` event whose
correlation id has no earlier `BEGIN` contributes no output line (it is
silently skipped), every other event contributes exactly one line, and
the output depends on nothing but the event sequence (the renderer is a
pure function and mutates nothing). -/
theorem claim_C8 :
    (∀ (es : List TimelineElem),
        (dumpLines [] es).length + orphanCount [] es = es.length)
    ∧ (∀ (m : List (Nat × TimelineElem)) (es1 : List TimelineElem) (e : TimelineElem)
          (es2 : List TimelineElem),
        e.type = ElemType.END → findBegin m e.id = none →
        (∀ b ∈ es1, b.type = ElemType.BEGIN → b.id ≠ e.id) →
        dumpLines m (es1 ++ e :: es2) = dumpLines m (es1 ++ es2))
    ∧ (∀ (t1 t2 : Timeline), t1.elems = t2.elems →
        TimelineDump.toString t1 = TimelineDump.toString t2) := by
  refine ⟨?_, ?_, ?_⟩
  · intro es
    refine dumpLines_length es [] [] ?_
    intro i
    simp [findBegin]
  · intro m es1 e es2 h1 h2 h3
    exact dumpLines_orphan es1 m e es2 h1 h2 h3
  · intro t1 t2 h
    unfold TimelineDump.toString Timeline.getElems
    rw [h]

/-- Witness for claim C8: dropping the orphaned `END` (id 99, no earlier
`BEGIN` with that id) from a concrete sequence leaves the rendered lines
unchanged, and the line-count bookkeeping holds on that sequence. -/
theorem claim_C8_witness :
    dumpLines [] ([⟨"a", ElemType.BEGIN, 1, 0, 0⟩] ++ ⟨"o", ElemType.END, 99, 0, 1⟩ :: [])
        = dumpLines [] ([⟨"a", ElemType.BEGIN, 1, 0, 0⟩] ++ [])
    ∧ (dumpLines [] [⟨"a", ElemType.BEGIN, 1, 0, 0⟩, ⟨"o", ElemType.END, 99, 0, 1⟩]).length
        + orphanCount [] [⟨"a", ElemType.BEGIN, 1, 0, 0⟩, ⟨"o", ElemType.END, 99, 0, 1⟩]
        = ([⟨"a", ElemType.BEGIN, 1, 0, 0⟩, ⟨"o", ElemType.END, 99, 0, 1⟩] : List TimelineElem).length :=
  ⟨claim_C8.2.1 [] [⟨"a", ElemType.BEGIN, 1, 0, 0⟩] ⟨"o", ElemType.END, 99, 0, 1⟩ [] rfl rfl
      (by decide),
    claim_C8.1 [⟨"a", ElemType.BEGIN, 1, 0, 0⟩, ⟨"o", ElemType.END, 99, 0, 1⟩]⟩

theorem mkMonitor_fst (name : String) (s : TLState) :
    (mkMonitor name s).1 = ⟨name, s.tl.eventIdCounter, false⟩ := rfl

theorem mkMonitor_snd_tl (name : String) (s : TLState) :
    (mkMonitor name s).2.tl =
      ⟨(s.tl.eventIdCounter + 1) % U64,
       s.tl.elems ++ [s.tl.beginElem name s.tl.eventIdCounter s.clock],
       (s.tl.lastDepth + 1) % U32⟩ := rfl

theorem destructMonitor_false {m : TimelineMonitor} (h : m.done = false) (s : TLState) :
    destructMonitor m s =
      (⟨m.myName, m.myId, true⟩, ⟨s.tl.pushEnd m.myName m.myId s.clock, s.clock + 1⟩) := by
  unfold destructMonitor
  rw [h]
  rfl

theorem depth_roundtrip {d : Nat} (h : d < U32) :
    ((d + 1) % U32 + (U32 - 1)) % U32 = d := by
  rw [U32_eq] at *
  omega

theorem runForest_spec : ∀ (f : Forest) (s : TLState),
    s.tl.eventIdCounter + f.size < U64 →
    s.tl.lastDepth < U32 →
    (runForest f s).1.tl.eventIdCounter = s.tl.eventIdCounter + f.size
    ∧ (runForest f s).1.tl.lastDepth = s.tl.lastDepth
    ∧ (runForest f s).2.length = 2 * f.size
    ∧ (∀ e1 ∈ (runForest f s).2,
        s.tl.eventIdCounter ≤ e1.id ∧ e1.id < s.tl.eventIdCounter + f.size)
    ∧ pairProp (runForest f s).2
    ∧ (∀ e0, s.tl.elems.head? = some e0 → e0.id < s.tl.eventIdCounter →
        (runForest f s).1.tl.elems = s.tl.elems ++ (runForest f s).2) := by
  intro f
  induction f with
  | nil =>
    intro s _ _
    refine ⟨rfl, rfl, rfl, ?_, ?_, ?_⟩
    · intro e1 he1
      exact absurd he1 (List.not_mem_nil e1)
    · intro e1 he1
      exact absurd he1 (List.not_mem_nil e1)
    · intro e0 _ _
      exact (List.append_nil s.tl.elems).symm
  | cons name ch rest ihc ihr =>
    intro s h1 h2
    have hsz : s.tl.eventIdCounter + (1 + ch.size + rest.size) < U64 := by
      simpa [Forest.size] using h1
    set mm := (mkMonitor name s).1 with hmm
    set s1 := (mkMonitor name s).2 with hs1def
    set q := runForest ch s1 with hq
    set e := q.1.tl.endElem name mm.myId q.1.clock with he
    set s3 := (destructMonitor mm q.1).2 with hs3def
    set r := runForest rest s3 with hr
    set b := s.tl.beginElem name mm.myId s.clock with hb
    have hrun : runForest (Forest.cons name ch rest) s = (r.1, b :: (q.2 ++ e :: r.2)) := rfl
    have hmmId : mm.myId = s.tl.eventIdCounter := by rw [hmm, mkMonitor_fst]
    have hmmName : mm.myName = name := by rw [hmm, mkMonitor_fst]
    have hmmDone : mm.done = false := by rw [hmm, mkMonitor_fst]
    have hbval : b = s.tl.beginElem name s.tl.eventIdCounter s.clock := by rw [hb, hmmId]
    have hs1tl : s1.tl =
        ⟨(s.tl.eventIdCounter + 1) % U64,
         s.tl.elems ++ [s.tl.beginElem name s.tl.eventIdCounter s.clock],
         (s.tl.lastDepth + 1) % U32⟩ := by rw [hs1def, mkMonitor_snd_tl]
    have hc1 : s1.tl.eventIdCounter = s.tl.eventIdCounter + 1 := by
      rw [hs1tl]
      exact Nat.mod_eq_of_lt (by omega)
    have hd1 : s1.tl.lastDepth = (s.tl.lastDepth + 1) % U32 := by rw [hs1tl]
    have hd1lt : s1.tl.lastDepth < U32 := by
      rw [hd1]
      apply Nat.mod_lt
      rw [U32_eq]
      omega
    obtain ⟨qc, qd, ql, qids, qpair, qapp⟩ := ihc s1 (by rw [hc1]; omega) hd1lt
    have qc' : q.1.tl.eventIdCounter = s.tl.eventIdCounter + 1 + ch.size := by
      rw [← hq] at qc
      rw [qc, hc1]
    have qd' : q.1.tl.lastDepth = (s.tl.lastDepth + 1) % U32 := by
      rw [← hq] at qd
      rw [qd, hd1]
    have qids' : ∀ e1 ∈ q.2, s.tl.eventIdCounter + 1 ≤ e1.id
        ∧ e1.id < s.tl.eventIdCounter + 1 + ch.size := by
      rw [← hq] at qids
      intro e1 hmem
      have hbd := qids e1 hmem
      rw [hc1] at hbd
      omega
    have heDepth : e.depth = s.tl.lastDepth := by
      rw [he]
      show (q.1.tl.lastDepth + (U32 - 1)) % U32 = s.tl.lastDepth
      rw [qd']
      exact depth_roundtrip h2
    have heId : e.id = s.tl.eventIdCounter := by
      rw [he]
      show mm.myId = s.tl.eventIdCounter
      exact hmmId
    have heType : e.type = ElemType.END := by rw [he]; rfl
    have hs3 : s3 = ⟨q.1.tl.pushEnd name mm.myId q.1.clock, q.1.clock + 1⟩ := by
      rw [hs3def, destructMonitor_false hmmDone, hmmName]
    have h3c : s3.tl.eventIdCounter = s.tl.eventIdCounter + 1 + ch.size := by
      rw [hs3]
      show (q.1.tl.pushEnd name mm.myId q.1.clock).eventIdCounter = _
      rw [pushEnd_eventIdCounter, qc']
    have h3d : s3.tl.lastDepth = s.tl.lastDepth := by
      rw [hs3]
      show (q.1.tl.pushEnd name mm.myId q.1.clock).lastDepth = _
      rw [pushEnd_lastDepth]
      show (q.1.tl.lastDepth + (U32 - 1)) % U32 = _
      rw [qd']
      exact depth_roundtrip h2
    obtain ⟨rc, rd, rl, rids, rpair, rapp⟩ :=
      ihr s3 (by rw [h3c]; omega) (by rw [h3d]; exact h2)
    rw [← hr] at rc rd rl rids rpair rapp
    have rids' : ∀ e1 ∈ r.2, s.tl.eventIdCounter + 1 + ch.size ≤ e1.id
        ∧ e1.id < s.tl.eventIdCounter + 1 + ch.size + rest.size := by
      intro e1 hmem
      have hbd := rids e1 hmem
      rw [h3c] at hbd
      omega
    have hbId : b.id = s.tl.eventIdCounter := by
      rw [hb]
      show mm.myId = s.tl.eventIdCounter
      exact hmmId
    have hbType : b.type = ElemType.BEGIN := by rw [hb]; rfl
    have hbDepth : b.depth = s.tl.lastDepth := by rw [hb]; rfl
    have hmem4 : ∀ x, x ∈ b :: (q.2 ++ e :: r.2) → x = b ∨ x ∈ q.2 ∨ x = e ∨ x ∈ r.2 := by
      intro x hx
      rcases List.mem_cons.mp hx with h | h
      · exact Or.inl h
      rcases List.mem_append.mp h with h | h
      · exact Or.inr (Or.inl h)
      rcases List.mem_cons.mp h with h | h
      · exact Or.inr (Or.inr (Or.inl h))
      · exact Or.inr (Or.inr (Or.inr h))
    rw [hrun]
    refine ⟨?_, ?_, ?_, ?_, ?_, ?_⟩
    · show r.1.tl.eventIdCounter = _
      rw [rc, h3c]
      simp only [Forest.size]
      omega
    · show r.1.tl.lastDepth = _
      rw [rd, h3d]
    · show (b :: (q.2 ++ e :: r.2)).length = _
      rw [← hq] at ql
      simp only [List.length_cons, List.length_append, ql, rl, Forest.size]
      omega
    · intro e1 he1m
      simp only [Forest.size]
      rcases hmem4 e1 he1m with hcase | hcase | hcase | hcase
      · subst hcase
        rw [hbId]
        omega
      · have := qids' e1 hcase
        omega
      · subst hcase
        rw [heId]
        omega
      · have := rids' e1 hcase
        omega
    · intro e1 he1m e2 he2m ht1 ht2 hid
      rcases hmem4 e1 he1m with hc1m | hc1m | hc1m | hc1m <;>
        rcases hmem4 e2 he2m with hc2m | hc2m | hc2m | hc2m
      · subst hc1m; subst hc2m
        simp [hbType] at ht2
      · subst hc1m
        have := qids' e2 hc2m
        rw [hid] at hbId
        omega
      · subst hc1m; subst hc2m
        rw [hbDepth, heDepth]
      · subst hc1m
        have := rids' e2 hc2m
        rw [hid] at hbId
        omega
      · subst hc2m
        simp [hbType] at ht2
      · exact qpair e1 hc1m e2 hc2m ht1 ht2 hid
      · subst hc2m
        have := qids' e1 hc1m
        rw [← hid] at heId
        omega
      · have hq1 := qids' e1 hc1m
        have hr2 := rids' e2 hc2m
        omega
      · subst hc1m
        simp [heType] at ht1
      · subst hc1m
        simp [heType] at ht1
      · subst hc1m
        simp [heType] at ht1
      · subst hc1m
        simp [heType] at ht1
      · subst hc2m
        simp [hbType] at ht2
      · have hr1 := rids' e1 hc1m
        have hq2 := qids' e2 hc2m
        omega
      · subst hc2m
        have := rids' e1 hc1m
        rw [← hid] at heId
        omega
      · exact rpair e1 hc1m e2 hc2m ht1 ht2 hid
    · intro e0 hh hlt
      have hs1elems : s1.tl.elems = s.tl.elems ++ [b] := by
        rw [hs1tl, hbval]
      have hh1 : s1.tl.elems.head? = some e0 := by
        rw [hs1elems]
        exact head?_append_of_head? hh
      have hlt1 : e0.id < s1.tl.eventIdCounter := by
        rw [hc1]
        omega
      rw [← hq] at qapp
      have happ1 := qapp e0 hh1 hlt1
      have hhq : q.1.tl.elems.head? = some e0 := by
        rw [happ1]
        exact head?_append_of_head? hh1
      have hne : e0.id ≠ mm.myId := by
        rw [hmmId]
        omega
      have hs3elems : s3.tl.elems = q.1.tl.elems ++ [e] := by
        rw [hs3]
        show (q.1.tl.pushEnd name mm.myId q.1.clock).elems = _
        rw [pushEnd_of_head hhq hne]
        rw [he]
        rfl
      have hh3 : s3.tl.elems.head? = some e0 := by
        rw [hs3elems]
        exact head?_append_of_head? hhq
      have hlt3 : e0.id < s3.tl.eventIdCounter := by
        rw [h3c]
        omega
      have happ3 := rapp e0 hh3 hlt3
      show r.1.tl.elems = _
      rw [happ3, hs3elems, happ1, hs1elems]
      simp

/-- Claim C6: in every well-nested sequence of `pushBegin`/`pushEnd`
operations (each `pushEnd` closes the most recently opened still-open
begin, with that begin's id — a `Forest` run), the depth recorded on a
`BEGIN` event is the pre-increment value of the nesting counter, the
depth on the matching `END` is the post-decrement value, and every
matched begin/end pair carries the same depth number. -/
theorem claim_C6 : ∀ (f : Forest) (s : TLState),
    s.tl.eventIdCounter + f.size < U64 →
    s.tl.lastDepth < U32 →
    (∀ (t : Timeline) (name : String) (id ts : Nat),
        (t.beginElem name id ts).depth = t.lastDepth
        ∧ (t.pushBegin name id ts).lastDepth = (t.lastDepth + 1) % U32
        ∧ (t.endElem name id ts).depth = (t.pushEnd name id ts).lastDepth)
    ∧ pairProp (runForest f s).2 := by
  intro f s h1 h2
  refine ⟨?_, (runForest_spec f s h1 h2).2.2.2.2.1⟩
  intro t name id ts
  refine ⟨rfl, rfl, ?_⟩
  rw [pushEnd_lastDepth]
  rfl

/-- Witness for claim C6 on a concrete two-level well-nested run from a
fresh thread-local timeline. -/
theorem claim_C6_witness :
    (⟨Timeline.init, 0⟩ : TLState).tl.eventIdCounter + demoForest.size < U64
    ∧ (⟨Timeline.init, 0⟩ : TLState).tl.lastDepth < U32
    ∧ pairProp (runForest demoForest ⟨Timeline.init, 0⟩).2 :=
  ⟨by decide, by decide,
    (claim_C6 demoForest ⟨Timeline.init, 0⟩ (by decide) (by decide)).2⟩

theorem runForest_innerForest : ∀ (A : Nat) (s : TLState),
    (runForest (innerForest A) s).1 = iterateN innerBlock A s := by
  intro A
  induction A with
  | zero => intro s; rfl
  | succ A ih =>
    intro s
    show (runForest (innerForest A)
        ((destructMonitor (mkMonitor "func_1_inner" s).1 (mkMonitor "func_1_inner" s).2).2)).1
      = iterateN innerBlock A (innerBlock s)
    rw [← ih (innerBlock s)]
    rfl

theorem runForest_hierForest (A : Nat) : ∀ (B : Nat) (s : TLState),
    (runForest (hierForest A B) s).1 = iterateN (HierTest.func1 A) B s := by
  intro B
  induction B with
  | zero => intro s; rfl
  | succ B ih =>
    intro s
    show (runForest (hierForest A B)
        ((destructMonitor (mkMonitor "func_1" s).1
          (runForest (innerForest A) (mkMonitor "func_1" s).2).1).2)).1
      = iterateN (HierTest.func1 A) B (HierTest.func1 A s)
    rw [runForest_innerForest A (mkMonitor "func_1" s).2, ← ih (HierTest.func1 A s)]
    rfl

theorem innerForest_size (A : Nat) : (innerForest A).size = A := by
  induction A with
  | zero => rfl
  | succ A ih =>
    simp only [innerForest, Forest.size, ih]
    omega

theorem hierForest_size (A B : Nat) : (hierForest A B).size = B * (1 + A) := by
  induction B with
  | zero => simp [hierForest, Forest.size]
  | succ B ih =>
    simp only [hierForest, Forest.size, innerForest_size, ih]
    ring

theorem pushEndAndExport_snd (t : Timeline) (name : String) (id ts : Nat) :
    (t.pushEndAndExport name id ts).2 = t.appendEnd name id ts := by
  rw [pushEndAndExport_eq]

theorem appendEnd_getElems (t : Timeline) (name : String) (id ts : Nat) :
    (t.appendEnd name id ts).getElems = t.elems ++ [t.endElem name id ts] := by
  simp only [Timeline.getElems, Timeline.appendEnd]

theorem getDepth_def (t : Timeline) : t.getDepth = t.lastDepth := rfl

theorem appendEnd_lastDepth (t : Timeline) (name : String) (id ts : Nat) :
    (t.appendEnd name id ts).lastDepth = t.endDepth := rfl

theorem endDepth_eq (t : Timeline) : t.endDepth = (t.lastDepth + (U32 - 1)) % U32 := rfl

theorem hierExport_spec (A B : Nat) (h : 1 + B * (1 + A) < U64) :
    (HierTest.hierExport A B).getElems.length = 2 * (1 + B + A * B)
    ∧ (HierTest.hierExport A B).getDepth = 0 := by
  set s0 : TLState := ⟨Timeline.init, 0⟩ with hs0
  set p := mkMonitor "func_2" s0 with hp
  have hp2tl : p.2.tl = ⟨1, [⟨"func_2", ElemType.BEGIN, 0, 0, 0⟩], 1⟩ := by
    rw [hp, mkMonitor_snd_tl, hs0]
    rfl
  have h1' : p.2.tl.eventIdCounter + (hierForest A B).size < U64 := by
    rw [hp2tl, hierForest_size]
    exact h
  have h2' : p.2.tl.lastDepth < U32 := by
    rw [hp2tl]
    show 1 < U32
    rw [U32_eq]
    omega
  obtain ⟨c2, d2, l2, _, _, app2⟩ := runForest_spec (hierForest A B) p.2 h1' h2'
  have happ := app2 ⟨"func_2", ElemType.BEGIN, 0, 0, 0⟩ (by rw [hp2tl]; rfl)
    (by rw [hp2tl]; exact Nat.zero_lt_one)
  set S2 := iterateN (HierTest.func1 A) B p.2 with hS2
  have hs2eq : S2 = (runForest (hierForest A B) p.2).1 := (runForest_hierForest A B p.2).symm
  have hS2len : S2.tl.elems.length = 1 + 2 * (B * (1 + A)) := by
    rw [hs2eq, happ, List.length_append, hp2tl, l2, hierForest_size]
    rfl
  have hS2depth : S2.tl.lastDepth = 1 := by
    rw [hs2eq, d2, hp2tl]
  have hexp : HierTest.hierExport A B =
      (S2.tl.pushEndAndExport p.1.myName p.1.myId S2.clock).2 := rfl
  constructor
  · rw [hexp, pushEndAndExport_snd, appendEnd_getElems, List.length_append, hS2len]
    simp only [List.length_singleton]
    ring
  · rw [hexp, pushEndAndExport_snd, getDepth_def, appendEnd_lastDepth, endDepth_eq, hS2depth,
      U32_eq]

/-- Claim C1, amended: for every well-nested run of one outermost scope
over `B` middle scopes of `A` inner scopes each (no mid-chain export, and
few enough scopes that the uint64 id issuer does not wrap), the exported
timeline holds exactly `2 * (1 + B + A*B)` events at depth counter 0 —
which for the literal values `A = 5`, `B = 10` is 122 events, not 330. -/
theorem claim_C1 :
    (∀ (A B : Nat), 1 + B * (1 + A) < U64 →
        (HierTest.hierExport A B).getElems.length = 2 * (1 + B + A * B)
        ∧ (HierTest.hierExport A B).getDepth = 0)
    ∧ (HierTest.hierExport 5 10).getElems.length = 122
    ∧ (HierTest.hierExport 5 10).getDepth = 0 := by
  have h510 : 1 + 10 * (1 + 5) < U64 := by rw [U64_eq]; omega
  refine ⟨fun A B hh => hierExport_spec A B hh, ?_, (hierExport_spec 5 10 h510).2⟩
  have := (hierExport_spec 5 10 h510).1
  omega

/-- Claim C1 counterexample: with the literal values `A = 5`, `B = 10`
the exported timeline does not contain 330 events (it contains
`2 * (1 + 10 + 5 * 10) = 122`). -/
theorem claim_C1_counterexample :
    ¬ ((HierTest.hierExport 5 10).getElems.length = 330) := by
  have h := (hierExport_spec 5 10 (by rw [U64_eq]; omega)).1
  omega

/-- Witness for claim C1 at the test's literal values `A = 5`, `B = 10`. -/
theorem claim_C1_witness :
    1 + 10 * (1 + 5) < U64
    ∧ (HierTest.hierExport 5 10).getElems.length = 2 * (1 + 10 + 5 * 10)
    ∧ (HierTest.hierExport 5 10).getDepth = 0 :=
  ⟨by rw [U64_eq]; omega,
    (claim_C1.1 5 10 (by rw [U64_eq]; omega)).1,
    (claim_C1.1 5 10 (by rw [U64_eq]; omega)).2⟩

end timeline_monitor
